import Mathlib

/-!
Verification of the Midifighter Pro per-tick engine (`src/midifighterpro.c`).

The definitions below are a shallow embedding of the C source: machine
integers become `Nat` with explicit `% 2^w` where a C narrowing cast occurs,
global mutable state becomes an explicit `EngineState` threaded through the
functions, and the per-tick task becomes a pure function from inputs and
state to a new state plus the list of emitted MIDI events.

External collaborators that live outside `midifighterpro.c` (the key-matrix
and expansion drivers, the `midi_*` note-mapping tables, the combo
recognizer) are modelled as inputs or opaque function parameters; their
values are never fixed by the embedding.
-/

namespace Midifighter

/-- A USB-MIDI event packet: 4-bit command nibble plus three data bytes
(`MIDI_EventPacket_t` fields `.Command`, `.Data1`, `.Data2`, `.Data3`). -/
structure MidiPacket where
  command : Nat
  data1 : Nat
  data2 : Nat
  data3 : Nat
  deriving DecidableEq, Repr

/-- Outbound MIDI events produced during a tick: `midi_stream_note`,
`midi_stream_cc` and `midi_stream_raw_cc` calls, in emission order. -/
inductive Event where
  | noteOn (note : Nat)
  | noteOff (note : Nat)
  | cc (controller value : Nat)
  | rawCC (channel controller value : Nat)
  deriving DecidableEq, Repr

/-- `g_device_mode`: DEFAULT / TRAKTOR / ABLETON. -/
inductive DeviceMode where
  | default
  | traktor
  | ableton
  deriving DecidableEq, Repr

/-- `g_key_fourbanks_mode`: FOURBANKS_OFF / _INTERNAL / _EXTERNAL. -/
inductive Fourbanks where
  | off
  | internal
  | external
  deriving DecidableEq, Repr

/-- Result of `combo_recognize` (external collaborator, classified only). -/
inductive ComboAction where
  | none
  | comboADown | comboARelease
  | comboBDown | comboBRelease
  | comboCDown | comboCRelease
  | comboDDown | comboDRelease
  | comboEDown | comboERelease
  deriving DecidableEq, Repr

/-- Engine configuration, read-only during a tick.  The function-valued
fields stand for the external note-mapping tables of `midi.c`, which are not
part of this source file. -/
structure Config where
  midi_channel : Nat
  velocity : Nat
  device_mode : DeviceMode
  fourbanks : Fourbanks
  rotate : Bool
  combos : Bool
  invert : List Bool
  led_keypress : Bool
  exp_led_keypress : Bool
  base_note : Nat
  key_to_note : Nat → Nat
  note_to_key : Nat → Nat
  fb_note_to_key : Nat → Nat

/-- Mutable engine state surviving across ticks: the 128-entry note-state
ledger `g_midi_note_state` (modelled as a total function on note numbers),
`g_key_bank_selected`, `g_exp_analog_prev`, the `static` local
`second_cc_value`, `g_led_groundfx_counter`, and `main_watchdog_flag`. -/
structure EngineState where
  note_state : Nat → Nat
  bank_selected : Nat
  analog_prev : List Nat
  second_cc : Nat
  groundfx : Nat
  watchdog : Bool

/-- Pointwise ledger write: `g_midi_note_state[n] = v`. -/
def setNote (f : Nat → Nat) (n v : Nat) : Nat → Nat :=
  fun m => if m = n then v else f m

/-- `remap(value, from, to, lo, hi)` from the source (all parameters are
`uint8_t`; `numer` and `denom` are `uint16_t`, and the result is cast back
to `uint8_t`).  The C parameter names `from`/`to` are Lean keywords, hence
`from_`/`to_`. -/
def remap (value from_ to_ lo hi : Nat) : Nat :=
  if value < from_ then lo
  else if to_ < value then hi
  else
    let numer := ((value - from_) * (hi - lo)) % 65536
    let denom := (to_ - from_) % 65536
    (lo + numer / denom) % 256

/-- One iteration of the inbound `while (MIDI_Device_ReceiveEventPacket...)`
loop body: realtime clock handling, SysEx pass-through (byte forwarding to
the external SysEx reader changes no engine state), and the channel-filtered
Note On/Off ledger updates. -/
def processPacket (cfg : Config) (s : EngineState) (p : MidiPacket) : EngineState :=
  if p.command = 0xF then
    if p.data1 = 0xF8 then { s with groundfx := s.groundfx + 1 }
    else if p.data1 = 0xFA then { s with groundfx := 0 }
    else if p.data1 = 0xFC then { s with groundfx := 0 }
    else s
  else if p.command = 0x4 ∨ p.command = 0x5 ∨ p.command = 0x6 ∨ p.command = 0x7 then
    s
  else
    if p.data1 % 16 = cfg.midi_channel then
      if p.command = 0x9 then
        { s with note_state := setNote s.note_state p.data2 p.data3 }
      else if p.command = 0x8 then
        { s with note_state := setNote s.note_state p.data2 0 }
      else s
    else s

/-- A packet whose fields fit the widths declared in `MIDI_EventPacket_t`
(4-bit command, byte-wide data). -/
def ValidPacket (p : MidiPacket) : Prop :=
  p.command ≤ 15 ∧ p.data1 ≤ 255 ∧ p.data2 ≤ 255 ∧ p.data3 ≤ 255

instance (p : MidiPacket) : Decidable (ValidPacket p) := by
  unfold ValidPacket; infer_instance

/-- Per-tick engine inputs produced by the external drivers: drained USB
packets, debounced key / expansion-key edge bitsets, four blocks of four raw
ADC samples, and the externally classified combo action. -/
structure Inputs where
  packets : List MidiPacket
  key_down : Nat
  key_up : Nat
  key_state : Nat
  exp_key_down : Nat
  exp_key_up : Nat
  exp_key_state : Nat
  adc : List (List Nat)
  combo_action : ComboAction

-- Analog pipeline ------------------------------------------------------------

/-- Sum four ADC samples into a `uint16_t` and shift right by two (the
averaging loop over `adc_value[i]`). -/
def analogAverage (samples : List Nat) : Nat :=
  (samples.foldl (· + ·) 0) >>> 2

/-- Slider inversion (`adc_value[i] = 1024 - adc_value[i]`), applied only
when the channel's compile-time `INVERT_SLIDER_n` flag is present and
`g_rotate_enable` is false. -/
def invertValue (rotate inv : Bool) (a : Nat) : Nat :=
  if ¬rotate ∧ inv then 1024 - a else a

/-- The full input value of analog channel `i`: 4-sample average, then
optional inversion. -/
def analogInput (cfg : Config) (i : Nat) (samples : List Nat) : Nat :=
  invertValue cfg.rotate (cfg.invert.getD i false) (analogAverage samples)

/-- Hysteresis dead-band: `int16_t difference = adc_value[i] - prev;
if (abs(difference) < 8) adc_value[i] = prev;`. -/
def hysteresis (prev a : Nat) : Nat :=
  if ((a : Int) - (prev : Int)).natAbs < 8 then prev else a

/-- Blocks 1-2 of the analog emission (lines 511-532): the primary CC with
its dead zones, and the Traktor-only second CC driven by the shared
`static uint8_t second_cc_value`.  Returns the CC events and the new
`second_cc_value`. -/
def analogCCPart (mode : DeviceMode) (i scv v : Nat) : List Event × Nat :=
  let cc_a := 16 + 2 * i
  let cc_b := 16 + 2 * i + 1
  if 3 ≤ v ∧ v ≤ 124 then
    let e1 : List Event := [Event.cc cc_a (remap v 3 124 0 127)]
    if mode = DeviceMode.traktor then
      if 64 ≤ v then
        let scv' := remap v 64 124 0 105
        (e1 ++ [Event.cc cc_b scv'], scv')
      else if 0 < scv then (e1 ++ [Event.cc cc_b 0], 0)
      else (e1, scv)
    else (e1, scv)
  else ([], scv)

/-- Block 3 of the analog emission (lines 541-556): the Traktor-only
dual-zone note if/else-if chain, with its direct ledger writes.  Returns
the note events and the new ledger. -/
def analogNotePart (mode : DeviceMode) (vel i v pv : Nat)
    (ledger : Nat → Nat) : List Event × (Nat → Nat) :=
  let note_a := 100 + 2 * i
  let note_b := 100 + 2 * i + 1
  if mode = DeviceMode.traktor then
    if v ≤ 3 ∧ 3 < pv then
      ([Event.noteOn note_a], setNote ledger note_a vel)
    else if 3 < v ∧ pv ≤ 3 then
      ([Event.noteOff note_a], setNote ledger note_a 0)
    else if 124 ≤ v ∧ pv < 124 then
      ([Event.noteOn note_b], setNote ledger note_b vel)
    else if v < 124 ∧ 124 ≤ pv then
      ([Event.noteOff note_b], setNote ledger note_b 0)
    else ([], ledger)
  else ([], ledger)

/-- Emission for one analog channel whose 7-bit value changed
(`value != prev_value` branch, source lines 488-556): the CC block followed
by the dual-zone note block, in source order.  Returns the events in
emission order, the new `second_cc_value` and the new ledger. -/
def analogChannelEmit (mode : DeviceMode) (vel i scv v pv : Nat)
    (ledger : Nat → Nat) : List Event × Nat × (Nat → Nat) :=
  let c := analogCCPart mode i scv v
  let n := analogNotePart mode vel i v pv ledger
  (c.1 ++ n.1, c.2, n.2)

/-- Note events (`midi_stream_note` calls), for isolating the dual-zone
block's output among a tick's events. -/
def isNoteEvent : Event → Bool
  | Event.noteOn _ => true
  | Event.noteOff _ => true
  | _ => false

/-- CC events (`midi_stream_cc` calls). -/
def isCCEvent : Event → Bool
  | Event.cc _ _ => true
  | _ => false

/-- The note events of an event list, in order. -/
def notesOf (evs : List Event) : List Event := evs.filter isNoteEvent

/-- One analog channel for one tick: hysteresis against the stored previous
10-bit value, reduction to 7 bits (`(uint8_t)(adc_value[i] >> 3)`), and, on
a 7-bit change, emission plus the `g_exp_analog_prev[i]` update.  Returns
(events, new `second_cc_value`, new `g_exp_analog_prev[i]`, new ledger). -/
def analogChannelStep (mode : DeviceMode) (vel i scv prev a : Nat)
    (ledger : Nat → Nat) : List Event × Nat × Nat × (Nat → Nat) :=
  let a' := hysteresis prev a
  let v := (a' >>> 3) % 256
  let pv := (prev >>> 3) % 256
  if v = pv then ([], scv, prev, ledger)
  else
    let r := analogChannelEmit mode vel i scv v pv ledger
    (r.1, r.2.1, a', r.2.2)

/-- The analog loop over the four channels (`NUM_ANALOG = 4`), threading the
shared `second_cc_value`, the ledger and `g_exp_analog_prev`. -/
def analogPhase (cfg : Config) (inp : Inputs) (s : EngineState) :
    List Event × EngineState :=
  (List.range 4).foldl
    (fun acc i =>
      let a := analogInput cfg i (inp.adc.getD i [])
      let prev := acc.2.analog_prev.getD i 0
      let r := analogChannelStep cfg.device_mode cfg.velocity i
                 acc.2.second_cc prev a acc.2.note_state
      (acc.1 ++ r.1,
       { acc.2 with
         second_cc := r.2.1,
         analog_prev := acc.2.analog_prev.set i r.2.2.1,
         note_state := r.2.2.2 }))
    ([], s)

-- Digital expansion notes ------------------------------------------------------

/-- Digital expansion port notes 4..7 (disabled in Fourbanks External). -/
def digitalEvents (cfg : Config) (inp : Inputs) : List Event :=
  if cfg.fourbanks ≠ Fourbanks.external then
    (List.range 4).foldl
      (fun acc i =>
        acc ++ (if inp.exp_key_down.testBit i then [Event.noteOn (4 + i)] else [])
            ++ (if inp.exp_key_up.testBit i then [Event.noteOff (4 + i)] else []))
      []
  else []

-- Bank-switching state machine -------------------------------------------------

/-- The bitset / offset / count selection of source lines 577-622, as a
7-tuple (bank_keydown, bank_keyup, bank_keystate, keydown, keyup,
keyoffset, keycount). -/
def bankSetup (cfg : Config) (inp : Inputs) :
    Nat × Nat × Nat × Nat × Nat × Nat × Nat :=
  match cfg.fourbanks with
  | Fourbanks.off =>
      (0, 0, 0, inp.key_down, inp.key_up, 0, 16)
  | Fourbanks.internal =>
      (inp.key_down, inp.key_up, inp.key_state,
       inp.key_down >>> 4, inp.key_up >>> 4, 4, 12)
  | Fourbanks.external =>
      (inp.exp_key_down, inp.exp_key_up, inp.exp_key_state,
       inp.key_down, inp.key_up, 0, 16)

/-- The `while (!(bank_keydown & bank_bit) && new_bank < 4)` scan, unrolled:
the loop starts at bit 0 and stops at the first set bit, or at 4 when none
of the four low bits is set. -/
def selectBank (keydown : Nat) : Nat :=
  if keydown.testBit 0 then 0
  else if keydown.testBit 1 then 1
  else if keydown.testBit 2 then 2
  else if keydown.testBit 3 then 3
  else 4

/-- The `if (bank_keydown & 0x000f)` block: pick the new bank, force a
Note-Off for the still-held old bank when it differs, then Note-On the new
bank and store it in `g_key_bank_selected`. -/
def bankUpdateDown (keydown keystate sel : Nat) : List Event × Nat :=
  if keydown % 16 ≠ 0 then
    let nb := selectBank keydown
    ((if sel ≠ nb ∧ keystate.testBit sel then [Event.noteOff sel] else [])
       ++ [Event.noteOn nb],
     nb)
  else ([], sel)

/-- The `if (bank_keyup & 0x000f)` block: Note-Off only when the released
key is the currently selected bank. -/
def bankUpdateUp (keyup sel : Nat) : List Event :=
  if keyup % 16 ≠ 0 then
    if keyup.testBit sel then [Event.noteOff sel] else []
  else []

-- Key emission, combos ---------------------------------------------------------

/-- The playable-key loop (source lines 658-679): per key, Note-On on a
down-edge (preceded in Ableton mode by a raw CC 127) and Note-Off on an
up-edge (followed in Ableton mode by a raw CC 0). -/
def keyEvents (cfg : Config) (keydown keyup keyoffset keycount : Nat) :
    List Event :=
  (List.range keycount).foldl
    (fun acc i =>
      let note := cfg.key_to_note (i + keyoffset)
      acc ++ (if keydown.testBit i then
                (if cfg.device_mode = DeviceMode.ableton then
                   [Event.rawCC (cfg.midi_channel + 1) note 127] else [])
                  ++ [Event.noteOn note]
              else [])
          ++ (if keyup.testBit i then
                [Event.noteOff note]
                  ++ (if cfg.device_mode = DeviceMode.ableton then
                        [Event.rawCC (cfg.midi_channel + 1) note 0] else [])
              else []))
    []

/-- Combo actions map to notes 8..12 when `g_combos_enable` is set. -/
def comboEvents (enabled : Bool) (a : ComboAction) : List Event :=
  if enabled then
    match a with
    | ComboAction.comboADown => [Event.noteOn 8]
    | ComboAction.comboARelease => [Event.noteOff 8]
    | ComboAction.comboBDown => [Event.noteOn 9]
    | ComboAction.comboBRelease => [Event.noteOff 9]
    | ComboAction.comboCDown => [Event.noteOn 10]
    | ComboAction.comboCRelease => [Event.noteOff 10]
    | ComboAction.comboDDown => [Event.noteOn 11]
    | ComboAction.comboDRelease => [Event.noteOff 11]
    | ComboAction.comboEDown => [Event.noteOn 12]
    | ComboAction.comboERelease => [Event.noteOff 12]
    | ComboAction.none => []
  else []

-- LED rendering ----------------------------------------------------------------

/-- LED output of a tick: the 16-bit main pattern, the 4-bit expansion-key
pattern when one is written this tick, and the ground-effects flag when one
is written this tick. -/
structure LedOut where
  main : Nat
  expansion : Option Nat
  ground : Option Bool
  deriving Repr

/-- OR together `1 << f i` over `count` notes starting at `base` whose
ledger velocity is nonzero (the LED loops of lines 738-742, 781-785,
815-819). -/
def ledFromNotes (ns : Nat → Nat) (f : Nat → Nat) (base count : Nat) : Nat :=
  (List.range count).foldl
    (fun leds j => if 0 < ns (base + j) then leds ||| (1 <<< f (base + j)) else leds)
    0

/-- The expansion-key LED loop over the four digital notes 4..7. -/
def expKeyLeds (ns : Nat → Nat) : Nat :=
  (List.range 4).foldl
    (fun leds i => if 0 < ns (4 + i) then leds ||| (1 <<< i) else leds)
    0

/-- The LED rendering block (lines 728-830), producing the main 16-bit
pattern handed to `led_set_state` and, in Off/Internal/External modes, the
expansion pattern handed to `exp_set_key_led`. -/
def ledRender (cfg : Config) (inp : Inputs) (ns : Nat → Nat) (sel : Nat) :
    Nat × Option Nat :=
  match cfg.fourbanks with
  | Fourbanks.off =>
      let leds := ledFromNotes ns cfg.note_to_key cfg.base_note 16
      let leds := if cfg.led_keypress then leds ||| inp.key_state else leds
      let key_leds := expKeyLeds ns
      let key_leds := if cfg.exp_led_keypress then key_leds ||| inp.exp_key_state
                      else key_leds
      (leds, some key_leds)
  | Fourbanks.internal =>
      let leds := (1 <<< sel) |||
        ledFromNotes ns cfg.fb_note_to_key (cfg.base_note + sel * 12) 12
      let leds := if cfg.led_keypress then leds ||| (inp.key_state &&& 0xfff0)
                  else leds
      (leds, some (expKeyLeds ns))
  | Fourbanks.external =>
      let leds := ledFromNotes ns cfg.fb_note_to_key (cfg.base_note + sel * 16) 16
      let leds := if cfg.led_keypress then leds ||| inp.key_state else leds
      (leds, some (1 <<< sel))

/-- The ground-effects block (lines 839-847): LED value written this tick
(none in the reset branch) and the new counter. -/
def groundfxStep (c : Nat) : Option Bool × Nat :=
  if c = 0 then (some true, c)
  else if c < 8 then (some false, c)
  else if c < 24 then (some true, c)
  else (none, 0)

-- The tick ---------------------------------------------------------------------

/-- The body of `Midifighter_Task` past the USB-configured guard: drain
inbound packets, emit digital / analog / bank / key / combo events in
source order, render the LEDs, step the ground-effects counter, and set the
watchdog flag. -/
def fullTick (cfg : Config) (inp : Inputs) (s : EngineState) :
    EngineState × List Event × Option LedOut :=
  let s1 := inp.packets.foldl (processPacket cfg) s
  let dEvs := digitalEvents cfg inp
  let ar := analogPhase cfg inp s1
  let s2 := ar.2
  let s3 := if cfg.fourbanks = Fourbanks.off then { s2 with bank_selected := 0 }
            else s2
  let bs := bankSetup cfg inp
  let bd := bankUpdateDown bs.1 bs.2.2.1 s3.bank_selected
  let s4 := { s3 with bank_selected := bd.2 }
  let buEvs := bankUpdateUp bs.2.1 s4.bank_selected
  let kEvs := keyEvents cfg bs.2.2.2.1 bs.2.2.2.2.1 bs.2.2.2.2.2.1 bs.2.2.2.2.2.2
  let cEvs := comboEvents cfg.combos inp.combo_action
  let lr := ledRender cfg inp s4.note_state s4.bank_selected
  let g := groundfxStep s4.groundfx
  ({ s4 with groundfx := g.2, watchdog := true },
   dEvs ++ ar.1 ++ bd.1 ++ buEvs ++ kEvs ++ cEvs,
   some ⟨lr.1, lr.2, g.1⟩)

/-- `Midifighter_Task`: when the USB device is not configured
(`USB_DeviceState != DEVICE_STATE_Configured`) the task only sets
`main_watchdog_flag` and returns; otherwise it runs the full tick. -/
def midifighterTask (cfg : Config) (configured : Bool) (inp : Inputs)
    (s : EngineState) : EngineState × List Event × Option LedOut :=
  if configured then fullTick cfg inp s
  else ({ s with watchdog := true }, [], none)

-- Theorems ---------------------------------------------------------------------

/-- For `from_ ≤ value ≤ to_` (with the byte bounds of the C types) the two
narrowing casts in `remap` are the identity, leaving the plain rescaling
formula. -/
lemma remap_formula (value from_ to_ lo hi : Nat)
    (hft : from_ < to_) (hlh : lo ≤ hi) (hto : to_ ≤ 255) (hhi : hi ≤ 255)
    (h1 : from_ ≤ value) (h2 : value ≤ to_) :
    remap value from_ to_ lo hi
      = lo + (value - from_) * (hi - lo) / (to_ - from_) := by
  unfold remap
  rw [if_neg (by omega), if_neg (by omega)]
  have hn : (value - from_) * (hi - lo) < 65536 := by
    have ha : value - from_ ≤ 255 := by omega
    have hb : hi - lo ≤ 255 := by omega
    have := Nat.mul_le_mul ha hb
    omega
  have hq : (value - from_) * (hi - lo) / (to_ - from_) ≤ hi - lo := by
    have hmul : (value - from_) * (hi - lo) ≤ (to_ - from_) * (hi - lo) :=
      Nat.mul_le_mul_right _ (by omega)
    have hdiv : (value - from_) * (hi - lo) / (to_ - from_)
        ≤ (to_ - from_) * (hi - lo) / (to_ - from_) := Nat.div_le_div_right hmul
    rwa [Nat.mul_div_cancel_left _ (by omega : 0 < to_ - from_)] at hdiv
  simp only [Nat.mod_eq_of_lt hn, Nat.mod_eq_of_lt (by omega : to_ - from_ < 65536)]
  exact Nat.mod_eq_of_lt (by omega)

/-- C6: for `remap(value, from, to, lo, hi)` as instantiated in this program
(`from < to`, `lo ≤ hi`, byte-sized arguments): any value below `from` maps
to `lo` and any value above `to` maps to `hi`; the endpoints map to `lo` and
`hi` exactly; and the result is monotonically non-decreasing on
`[from, to]`. -/
theorem c6_remap_spec (value from_ to_ lo hi : Nat)
    (hft : from_ < to_) (hlh : lo ≤ hi) (hto : to_ ≤ 255) (hhi : hi ≤ 255) :
    (value < from_ → remap value from_ to_ lo hi = lo) ∧
    (to_ < value → remap value from_ to_ lo hi = hi) ∧
    (value = from_ → remap value from_ to_ lo hi = lo) ∧
    (value = to_ → remap value from_ to_ lo hi = hi) ∧
    (∀ v w, from_ ≤ v → v ≤ w → w ≤ to_ →
      remap v from_ to_ lo hi ≤ remap w from_ to_ lo hi) := by
  refine ⟨?_, ?_, ?_, ?_, ?_⟩
  · intro h
    unfold remap
    rw [if_pos h]
  · intro h
    unfold remap
    rw [if_neg (by omega), if_pos h]
  · intro h
    rw [h, remap_formula from_ from_ to_ lo hi hft hlh hto hhi (le_refl _) (le_of_lt hft)]
    simp
  · intro h
    rw [h, remap_formula to_ from_ to_ lo hi hft hlh hto hhi (le_of_lt hft) (le_refl _),
        Nat.mul_div_cancel_left _ (by omega : 0 < to_ - from_)]
    omega
  · intro v w hv hvw hw
    rw [remap_formula _ _ _ _ _ hft hlh hto hhi hv (le_trans hvw hw),
        remap_formula _ _ _ _ _ hft hlh hto hhi (le_trans hv hvw) hw]
    exact Nat.add_le_add_left
      (Nat.div_le_div_right
        (Nat.mul_le_mul_right _ (Nat.sub_le_sub_right hvw _))) _

/-- Witness for `c6_remap_spec` at the program's primary-CC instantiation
`remap(70, 3, 124, 0, 127)`. -/
theorem c6_remap_spec_witness :
    remap 2 3 124 0 127 = 0 ∧ remap 125 3 124 0 127 = 127 ∧
    remap 3 3 124 0 127 = 0 ∧ remap 124 3 124 0 127 = 127 ∧
    remap 70 3 124 0 127 ≤ remap 80 3 124 0 127 := by
  have h := c6_remap_spec 2 3 124 0 127 (by decide) (by decide) (by decide) (by decide)
  have h' := c6_remap_spec 125 3 124 0 127 (by decide) (by decide) (by decide) (by decide)
  have h3 := c6_remap_spec 3 3 124 0 127 (by decide) (by decide) (by decide) (by decide)
  have h4 := c6_remap_spec 124 3 124 0 127 (by decide) (by decide) (by decide) (by decide)
  exact ⟨h.1 (by decide), h'.2.1 (by decide), h3.2.2.1 rfl, h4.2.2.2.1 rfl,
    h.2.2.2.2 70 80 (by decide) (by decide) (by decide)⟩

-- Concrete fixtures used to instantiate theorems with hypotheses ---------------

/-- A concrete configuration (receive channel 0, default velocity 127,
Traktor mode, Fourbanks Internal) for witnesses and counterexamples. -/
def cfg0 : Config :=
  { midi_channel := 0, velocity := 127, device_mode := DeviceMode.traktor,
    fourbanks := Fourbanks.internal, rotate := false, combos := false,
    invert := [true, false, false, false], led_keypress := false,
    exp_led_keypress := false, base_note := 36,
    key_to_note := fun k => 36 + k, note_to_key := fun n => n - 36,
    fb_note_to_key := fun n => n - 36 }

/-- A concrete engine state: empty ledger, bank 0, zeroed analog history. -/
def state0 : EngineState :=
  { note_state := fun _ => 0, bank_selected := 0,
    analog_prev := [0, 0, 0, 0], second_cc := 0, groundfx := 0,
    watchdog := false }

-- C1: inbound Note On/Off ledger updates ----------------------------------------

/-- C1: for an inbound packet with command nibble `0x9` whose first data
byte's low nibble matches the receive channel, the ledger entry at the
second data byte becomes the velocity byte verbatim (including zero); with
command `0x8` it becomes exactly 0 regardless of the velocity byte; and a
Note packet on a non-matching channel leaves the ledger unchanged. -/
theorem c1_inbound_note_ledger (cfg : Config) (s : EngineState) (p : MidiPacket) :
    ((p.command = 0x9 ∧ p.data1 % 16 = cfg.midi_channel) →
       (processPacket cfg s p).note_state = setNote s.note_state p.data2 p.data3) ∧
    ((p.command = 0x8 ∧ p.data1 % 16 = cfg.midi_channel) →
       (processPacket cfg s p).note_state = setNote s.note_state p.data2 0) ∧
    (((p.command = 0x9 ∨ p.command = 0x8) ∧ p.data1 % 16 ≠ cfg.midi_channel) →
       (processPacket cfg s p).note_state = s.note_state) := by
  refine ⟨?_, ?_, ?_⟩
  · rintro ⟨hc, hch⟩
    simp [processPacket, hc, hch]
  · rintro ⟨hc, hch⟩
    simp [processPacket, hc, hch]
  · rintro ⟨hc, hch⟩
    rcases hc with hc | hc <;> simp [processPacket, hc, hch]

/-- Witness for `c1_inbound_note_ledger`: a Note-On with velocity 99, a
Note-On with velocity 0, a Note-Off with a nonzero velocity byte, and an
off-channel Note-On. -/
theorem c1_inbound_note_ledger_witness :
    (processPacket cfg0 state0 ⟨0x9, 0, 60, 99⟩).note_state 60 = 99 ∧
    (processPacket cfg0 state0 ⟨0x9, 0, 60, 0⟩).note_state 60 = 0 ∧
    (processPacket cfg0 state0 ⟨0x8, 0, 60, 77⟩).note_state 60 = 0 ∧
    (processPacket cfg0 state0 ⟨0x9, 5, 60, 99⟩).note_state 60 = state0.note_state 60 := by
  have h1 := (c1_inbound_note_ledger cfg0 state0 ⟨0x9, 0, 60, 99⟩).1 ⟨rfl, by decide⟩
  have h2 := (c1_inbound_note_ledger cfg0 state0 ⟨0x9, 0, 60, 0⟩).1 ⟨rfl, by decide⟩
  have h3 := (c1_inbound_note_ledger cfg0 state0 ⟨0x8, 0, 60, 77⟩).2.1 ⟨rfl, by decide⟩
  have h4 := (c1_inbound_note_ledger cfg0 state0 ⟨0x9, 5, 60, 99⟩).2.2
    ⟨Or.inl rfl, by decide⟩
  rw [h1, h2, h3, h4]
  refine ⟨by decide, by decide, by decide, rfl⟩

-- C8: ledger write indices -------------------------------------------------------

/-- The ledger cell read after `processPacket` is the original one unless it
is the packet's second data byte: the inbound path writes at most the index
`Data2`. -/
lemma processPacket_note_state_cases (cfg : Config) (s : EngineState)
    (p : MidiPacket) (n : Nat) :
    (processPacket cfg s p).note_state n = s.note_state n ∨ n = p.data2 := by
  rcases eq_or_ne n p.data2 with h | h
  · exact Or.inr h
  · left
    unfold processPacket
    repeat' split
    all_goals first | rfl | simp [setNote, h]

/-- C8 is false as stated: the inbound Note path indexes the ledger with the
raw second data byte, so a possible (byte-valid) packet carrying `Data2 =
200` on the matching channel writes ledger index 200, outside the 128-entry
range. -/
theorem c8_ledger_index_counterexample :
    ValidPacket ⟨0x9, 0, 200, 5⟩ ∧
    127 < 200 ∧
    state0.note_state 200 = 0 ∧
    (processPacket cfg0 state0 ⟨0x9, 0, 200, 5⟩).note_state 200 = 5 := by
  refine ⟨by decide, by decide, rfl, by decide⟩

/-- C8 (amended): for every inbound packet whose second data byte is a valid
MIDI data byte (at most 127), the inbound Note On/Off path never changes any
ledger entry above index 127; the bound is not enforced for a host-supplied
second data byte above 127, which is written at its own out-of-range
index. -/
theorem c8_ledger_index_amended (cfg : Config) (s : EngineState)
    (p : MidiPacket) (h : p.data2 ≤ 127) :
    ∀ n, 127 < n → (processPacket cfg s p).note_state n = s.note_state n := by
  intro n hn
  rcases processPacket_note_state_cases cfg s p n with h' | h'
  · exact h'
  · omega

/-- Witness for `c8_ledger_index_amended`: a valid Note-On at note 60 leaves
ledger index 130 untouched. -/
theorem c8_ledger_index_amended_witness :
    (processPacket cfg0 state0 ⟨0x9, 0, 60, 99⟩).note_state 130
      = state0.note_state 130 :=
  c8_ledger_index_amended cfg0 state0 ⟨0x9, 0, 60, 99⟩ (by decide) 130 (by decide)

-- C2: bank selection -------------------------------------------------------------

/-- The unrolled bank-select scan returns the lowest-indexed set bit among
the four bank-select bits whenever one is set. -/
lemma selectBank_spec (kd : Nat) (h : kd % 16 ≠ 0) :
    selectBank kd < 4 ∧ kd.testBit (selectBank kd) = true ∧
    ∀ j, j < selectBank kd → kd.testBit j = false := by
  have e0 : kd.testBit 0 = decide (kd / 2 ^ 0 % 2 = 1) := Nat.testBit_to_div_mod
  have e1 : kd.testBit 1 = decide (kd / 2 ^ 1 % 2 = 1) := Nat.testBit_to_div_mod
  have e2 : kd.testBit 2 = decide (kd / 2 ^ 2 % 2 = 1) := Nat.testBit_to_div_mod
  have e3 : kd.testBit 3 = decide (kd / 2 ^ 3 % 2 = 1) := Nat.testBit_to_div_mod
  by_cases b0 : kd.testBit 0 = true
  · have hsel : selectBank kd = 0 := by simp [selectBank, b0]
    rw [hsel]
    exact ⟨by omega, b0, fun j hj => absurd hj (Nat.not_lt_zero j)⟩
  · rw [Bool.not_eq_true] at b0
    by_cases b1 : kd.testBit 1 = true
    · have hsel : selectBank kd = 1 := by simp [selectBank, b0, b1]
      rw [hsel]
      refine ⟨by omega, b1, ?_⟩
      intro j hj
      have hj0 : j = 0 := by omega
      rw [hj0]; exact b0
    · rw [Bool.not_eq_true] at b1
      by_cases b2 : kd.testBit 2 = true
      · have hsel : selectBank kd = 2 := by simp [selectBank, b0, b1, b2]
        rw [hsel]
        refine ⟨by omega, b2, ?_⟩
        intro j hj
        have hj' : j = 0 ∨ j = 1 := by omega
        rcases hj' with hj0 | hj1
        · rw [hj0]; exact b0
        · rw [hj1]; exact b1
      · rw [Bool.not_eq_true] at b2
        by_cases b3 : kd.testBit 3 = true
        · have hsel : selectBank kd = 3 := by simp [selectBank, b0, b1, b2, b3]
          rw [hsel]
          refine ⟨by omega, b3, ?_⟩
          intro j hj
          have hj' : j = 0 ∨ j = 1 ∨ j = 2 := by omega
          rcases hj' with hj0 | hj1 | hj2
          · rw [hj0]; exact b0
          · rw [hj1]; exact b1
          · rw [hj2]; exact b2
        · rw [Bool.not_eq_true] at b3
          exfalso
          rw [b0] at e0; rw [b1] at e1; rw [b2] at e2; rw [b3] at e3
          have n0 : ¬ (kd / 2 ^ 0 % 2 = 1) := of_decide_eq_false e0.symm
          have n1 : ¬ (kd / 2 ^ 1 % 2 = 1) := of_decide_eq_false e1.symm
          have n2 : ¬ (kd / 2 ^ 2 % 2 = 1) := of_decide_eq_false e2.symm
          have n3 : ¬ (kd / 2 ^ 3 % 2 = 1) := of_decide_eq_false e3.symm
          norm_num at n0 n1 n2 n3
          omega

/-- C2: on any down-edge among the four bank-select bits, the new bank is
the lowest-indexed set bit of the down-edge bitset; the emitted events are a
forced Note-Off for the old bank exactly when it differs from the new bank
and its select key is still held, followed by a Note-On for the new bank,
which is emitted on every qualifying down-edge (including reselection). -/
theorem c2_bank_select (keydown keystate sel : Nat) (h : keydown % 16 ≠ 0) :
    (bankUpdateDown keydown keystate sel).2 < 4 ∧
    keydown.testBit (bankUpdateDown keydown keystate sel).2 = true ∧
    (∀ j, j < (bankUpdateDown keydown keystate sel).2 →
      keydown.testBit j = false) ∧
    (bankUpdateDown keydown keystate sel).1
      = (if sel ≠ (bankUpdateDown keydown keystate sel).2 ∧ keystate.testBit sel
         then [Event.noteOff sel] else [])
        ++ [Event.noteOn (bankUpdateDown keydown keystate sel).2] := by
  have hs := selectBank_spec keydown h
  unfold bankUpdateDown
  rw [if_pos h]
  exact ⟨hs.1, hs.2.1, hs.2.2, rfl⟩

/-- Witness for `c2_bank_select`: simultaneous down-edges on bits `{1, 2}`
(bitset `0b0110`) with bank 0 selected and still held select bank 1 and emit
Note-Off(0) then Note-On(1). -/
theorem c2_bank_select_witness :
    (bankUpdateDown 6 1 0).2 < 4 ∧
    Nat.testBit 6 (bankUpdateDown 6 1 0).2 = true ∧
    bankUpdateDown 6 1 0 = ([Event.noteOff 0, Event.noteOn 1], 1) := by
  have h := c2_bank_select 6 1 0 (by decide)
  exact ⟨h.1, h.2.1, by decide⟩

-- C7: hysteresis -----------------------------------------------------------------

/-- The hysteresis result is either the previous value or the new one. -/
lemma hysteresis_cases (prev a : Nat) :
    hysteresis prev a = prev ∨ hysteresis prev a = a := by
  unfold hysteresis
  split
  · exact Or.inl rfl
  · exact Or.inr rfl

/-- C7: for an analog channel with stored previous 10-bit value `p` and new
10-bit average `a`: when `|a − p| < 8` the change is discarded — the value
used downstream and the stored previous value both stay `p` and the channel
emits nothing; when `|a − p| ≥ 8` the stored previous value becomes `a` by
the end of the channel's processing. -/
theorem c7_hysteresis (mode : DeviceMode) (vel i scv prev a : Nat)
    (ledger : Nat → Nat) (ha : a ≤ 1024) (hp : prev ≤ 1024) :
    (((a : Int) - (prev : Int)).natAbs < 8 →
       hysteresis prev a = prev ∧
       analogChannelStep mode vel i scv prev a ledger = ([], scv, prev, ledger)) ∧
    (8 ≤ ((a : Int) - (prev : Int)).natAbs →
       (analogChannelStep mode vel i scv prev a ledger).2.2.1 = a) := by
  constructor
  · intro h
    have hh : hysteresis prev a = prev := by
      unfold hysteresis
      rw [if_pos h]
    refine ⟨hh, ?_⟩
    unfold analogChannelStep
    rw [hh, if_pos rfl]
  · intro h
    have hh : hysteresis prev a = a := by
      unfold hysteresis
      rw [if_neg (by omega)]
    have ea : a >>> 3 = a / 8 := by
      rw [Nat.shiftRight_eq_div_pow]
    have ep : prev >>> 3 = prev / 8 := by
      rw [Nat.shiftRight_eq_div_pow]
    have hne : (a >>> 3) % 256 ≠ (prev >>> 3) % 256 := by
      rw [ea, ep, Nat.mod_eq_of_lt (by omega), Nat.mod_eq_of_lt (by omega)]
      omega
    unfold analogChannelStep
    rw [hh, if_neg hne]

/-- Witness for `c7_hysteresis`: previous value 512 with new average 515
(difference 3) keeps 512; new average 900 (difference 388) stores 900. -/
theorem c7_hysteresis_witness :
    (analogChannelStep DeviceMode.traktor 127 0 0 512 515 state0.note_state
      = ([], 0, 512, state0.note_state)) ∧
    (analogChannelStep DeviceMode.traktor 127 0 0 512 900 state0.note_state).2.2.1
      = 900 := by
  have h1 := (c7_hysteresis DeviceMode.traktor 127 0 0 512 515 state0.note_state
    (by decide) (by decide)).1 (by decide)
  have h2 := (c7_hysteresis DeviceMode.traktor 127 0 0 512 900 state0.note_state
    (by decide) (by decide)).2 (by decide)
  exact ⟨h1.2, h2⟩

-- C3 / C4 / C5: analog dual zones and the second CC ------------------------------

/-- The CC block emits no note events. -/
lemma analogCCPart_no_notes (mode : DeviceMode) (i scv v : Nat) :
    notesOf (analogCCPart mode i scv v).1 = [] := by
  unfold analogCCPart
  split_ifs <;> simp [notesOf, isNoteEvent]

/-- The dual-zone block emits only note events. -/
lemma analogNotePart_notes_id (mode : DeviceMode) (vel i v pv : Nat)
    (ledger : Nat → Nat) :
    notesOf (analogNotePart mode vel i v pv ledger).1
      = (analogNotePart mode vel i v pv ledger).1 := by
  unfold analogNotePart
  split_ifs <;> simp [notesOf, isNoteEvent]

/-- The dual-zone block emits no CC events. -/
lemma analogNotePart_no_cc (mode : DeviceMode) (vel i v pv : Nat)
    (ledger : Nat → Nat) (e : Event)
    (he : e ∈ (analogNotePart mode vel i v pv ledger).1) :
    isCCEvent e = false := by
  unfold analogNotePart at he
  split_ifs at he <;> simp at he <;> simp [he, isCCEvent]

/-- The note events of a changed analog channel's emission are exactly the
dual-zone block's output, and the final ledger is the dual-zone block's
ledger. -/
lemma notesOf_emit (mode : DeviceMode) (vel i scv v pv : Nat)
    (ledger : Nat → Nat) :
    notesOf (analogChannelEmit mode vel i scv v pv ledger).1
      = (analogNotePart mode vel i v pv ledger).1 := by
  unfold analogChannelEmit
  show notesOf (_ ++ _) = _
  rw [notesOf, List.filter_append]
  rw [show List.filter isNoteEvent (analogCCPart mode i scv v).1
        = notesOf (analogCCPart mode i scv v).1 from rfl,
      analogCCPart_no_notes]
  rw [show List.filter isNoteEvent (analogNotePart mode vel i v pv ledger).1
        = notesOf (analogNotePart mode vel i v pv ledger).1 from rfl,
      analogNotePart_notes_id]
  exact List.nil_append _

/-- C3 is false as stated: in Traktor mode a single change can cross both
zone boundaries, and the else-if chain then fires only the first matching
case.  Channel 0 moving from 10-bit 1008 (7-bit 126, inside the top zone)
to 16 (7-bit 2, inside the bottom zone) emits only Note-On(100); the
claimed Note-Off for `note_b` = 101 is not emitted and the ledger entry 101
keeps its old nonzero velocity instead of being set to 0. -/
theorem c3_dual_zone_counterexample :
    (analogChannelStep DeviceMode.traktor 127 0 0 1008 16
        (fun n => if n = 101 then 99 else 0)).1
      = [Event.noteOn 100] ∧
    (analogChannelStep DeviceMode.traktor 127 0 0 1008 16
        (fun n => if n = 101 then 99 else 0)).2.2.2 101 = 99 := by
  exact ⟨by decide, by decide⟩

/-- C3 (amended): in Traktor mode, for a changed analog channel the four
zone transitions are tested in a fixed order (bottom-enter, bottom-leave,
top-enter, top-leave) and only the first matching case fires.  Entering the
bottom zone emits Note-On(note_a) and writes the configured velocity
(nonzero when the configuration is); leaving it emits Note-Off(note_a) and
writes 0; entering the top zone with the bottom zone not just left emits
Note-On(note_b) and writes the velocity; leaving the top zone with the
bottom zone not just entered emits Note-Off(note_b) and writes 0; otherwise
no dual-zone note is emitted and the ledger is unchanged. -/
theorem c3_dual_zone_amended (vel i scv v pv : Nat) (ledger : Nat → Nat)
    (hvel : 0 < vel) :
    (notesOf (analogChannelEmit DeviceMode.traktor vel i scv v pv ledger).1
       = (analogNotePart DeviceMode.traktor vel i v pv ledger).1) ∧
    ((analogChannelEmit DeviceMode.traktor vel i scv v pv ledger).2.2
       = (analogNotePart DeviceMode.traktor vel i v pv ledger).2) ∧
    (v ≤ 3 ∧ 3 < pv →
       analogNotePart DeviceMode.traktor vel i v pv ledger
         = ([Event.noteOn (100 + 2 * i)], setNote ledger (100 + 2 * i) vel) ∧
       0 < setNote ledger (100 + 2 * i) vel (100 + 2 * i)) ∧
    (3 < v ∧ pv ≤ 3 →
       analogNotePart DeviceMode.traktor vel i v pv ledger
         = ([Event.noteOff (100 + 2 * i)], setNote ledger (100 + 2 * i) 0)) ∧
    (124 ≤ v ∧ pv < 124 ∧ 3 < pv →
       analogNotePart DeviceMode.traktor vel i v pv ledger
         = ([Event.noteOn (100 + 2 * i + 1)],
            setNote ledger (100 + 2 * i + 1) vel) ∧
       0 < setNote ledger (100 + 2 * i + 1) vel (100 + 2 * i + 1)) ∧
    (v < 124 ∧ 124 ≤ pv ∧ 3 < v →
       analogNotePart DeviceMode.traktor vel i v pv ledger
         = ([Event.noteOff (100 + 2 * i + 1)],
            setNote ledger (100 + 2 * i + 1) 0)) ∧
    (¬(v ≤ 3 ∧ 3 < pv) → ¬(3 < v ∧ pv ≤ 3) → ¬(124 ≤ v ∧ pv < 124) →
     ¬(v < 124 ∧ 124 ≤ pv) →
       analogNotePart DeviceMode.traktor vel i v pv ledger = ([], ledger)) := by
  refine ⟨notesOf_emit _ _ _ _ _ _ _, rfl, ?_, ?_, ?_, ?_, ?_⟩
  · rintro ⟨h1, h2⟩
    unfold analogNotePart
    rw [if_pos rfl, if_pos ⟨h1, h2⟩]
    exact ⟨rfl, by simp [setNote, hvel]⟩
  · rintro ⟨h1, h2⟩
    unfold analogNotePart
    rw [if_pos rfl, if_neg (by omega), if_pos ⟨h1, h2⟩]
  · rintro ⟨h1, h2, h3⟩
    unfold analogNotePart
    rw [if_pos rfl, if_neg (by omega), if_neg (by omega), if_pos ⟨h1, h2⟩]
    exact ⟨rfl, by simp [setNote, hvel]⟩
  · rintro ⟨h1, h2, h3⟩
    unfold analogNotePart
    rw [if_pos rfl, if_neg (by omega), if_neg (by omega), if_neg (by omega),
        if_pos ⟨h1, h2⟩]
  · intro h1 h2 h3 h4
    unfold analogNotePart
    rw [if_pos rfl, if_neg h1, if_neg h2, if_neg h3, if_neg h4]

/-- Witness for `c3_dual_zone_amended` on channel 0: a plain bottom-zone
entry (7-bit 5 → 2) emits exactly Note-On(100) and writes velocity 127. -/
theorem c3_dual_zone_amended_witness :
    analogNotePart DeviceMode.traktor 127 0 2 5 state0.note_state
      = ([Event.noteOn 100], setNote state0.note_state 100 127) ∧
    0 < setNote state0.note_state 100 127 100 := by
  exact (c3_dual_zone_amended 127 0 0 2 5 state0.note_state (by decide)).2.2.1
    ⟨by decide, by decide⟩

/-- C4 is false as stated: crossing 7-bit 2 → 4 (10-bit 16 → 32) emits
Note-Off(100), not the claimed Note-On; and crossing 7-bit 124 → 126
(10-bit 992 → 1008) emits no note at all, because 124 already lies inside
the top zone. -/
theorem c4_zone_crossing_counterexample :
    notesOf (analogChannelStep DeviceMode.traktor 127 0 0 16 32
        state0.note_state).1
      = [Event.noteOff 100] ∧
    notesOf (analogChannelStep DeviceMode.traktor 127 0 0 992 1008
        state0.note_state).1
      = [] := by
  exact ⟨by decide, by decide⟩

/-- C4 (amended): in Traktor mode, crossing 7-bit 2 → 4 emits
Note-Off(note_a) and crossing 4 → 2 emits Note-On(note_a) — the note turns
on on zone entry, not on zone exit; crossing 122 → 126 emits
Note-On(note_b) (124 itself already lies inside the top zone, so 124 → 126
emits nothing) and crossing 126 → 122 emits Note-Off(note_b); and no
dual-zone note repeats while the value stays on one side of both
boundaries, so each crossing emits its event exactly once. -/
theorem c4_zone_crossing_amended (vel i scv : Nat) (ledger : Nat → Nat) :
    (notesOf (analogChannelEmit DeviceMode.traktor vel i scv 4 2 ledger).1
       = [Event.noteOff (100 + 2 * i)]) ∧
    (notesOf (analogChannelEmit DeviceMode.traktor vel i scv 2 4 ledger).1
       = [Event.noteOn (100 + 2 * i)]) ∧
    (notesOf (analogChannelEmit DeviceMode.traktor vel i scv 126 122 ledger).1
       = [Event.noteOn (100 + 2 * i + 1)]) ∧
    (notesOf (analogChannelEmit DeviceMode.traktor vel i scv 122 126 ledger).1
       = [Event.noteOff (100 + 2 * i + 1)]) ∧
    (∀ v pv, 3 < v → v < 124 → 3 < pv → pv < 124 →
       notesOf (analogChannelEmit DeviceMode.traktor vel i scv v pv ledger).1
         = []) ∧
    (∀ v pv, v ≤ 3 → pv ≤ 3 →
       notesOf (analogChannelEmit DeviceMode.traktor vel i scv v pv ledger).1
         = []) ∧
    (∀ v pv, 124 ≤ v → 124 ≤ pv →
       notesOf (analogChannelEmit DeviceMode.traktor vel i scv v pv ledger).1
         = []) := by
  refine ⟨?_, ?_, ?_, ?_, ?_, ?_, ?_⟩
  · rw [notesOf_emit]
    unfold analogNotePart
    rw [if_pos rfl, if_neg (by omega), if_pos ⟨by omega, by omega⟩]
  · rw [notesOf_emit]
    unfold analogNotePart
    rw [if_pos rfl, if_pos ⟨by omega, by omega⟩]
  · rw [notesOf_emit]
    unfold analogNotePart
    rw [if_pos rfl, if_neg (by omega), if_neg (by omega),
        if_pos ⟨by omega, by omega⟩]
  · rw [notesOf_emit]
    unfold analogNotePart
    rw [if_pos rfl, if_neg (by omega), if_neg (by omega), if_neg (by omega),
        if_pos ⟨by omega, by omega⟩]
  · intro v pv h1 h2 h3 h4
    rw [notesOf_emit]
    unfold analogNotePart
    rw [if_pos rfl, if_neg (by omega), if_neg (by omega), if_neg (by omega),
        if_neg (by omega)]
  · intro v pv h1 h2
    rw [notesOf_emit]
    unfold analogNotePart
    rw [if_pos rfl, if_neg (by omega), if_neg (by omega), if_neg (by omega),
        if_neg (by omega)]
  · intro v pv h1 h2
    rw [notesOf_emit]
    unfold analogNotePart
    rw [if_pos rfl, if_neg (by omega), if_neg (by omega), if_neg (by omega),
        if_neg (by omega)]

/-- Witness for `c4_zone_crossing_amended` on channel 0: the once-per-crossing
parts at mid-range 7-bit values 60 → 70, both-bottom 1 → 2 and both-top
125 → 127 emit no note events. -/
theorem c4_zone_crossing_amended_witness :
    notesOf (analogChannelEmit DeviceMode.traktor 127 0 0 70 60
        state0.note_state).1 = [] ∧
    notesOf (analogChannelEmit DeviceMode.traktor 127 0 0 2 1
        state0.note_state).1 = [] ∧
    notesOf (analogChannelEmit DeviceMode.traktor 127 0 0 127 125
        state0.note_state).1 = [] := by
  have h := c4_zone_crossing_amended 127 0 0 state0.note_state
  exact ⟨h.2.2.2.2.1 70 60 (by decide) (by decide) (by decide) (by decide),
    h.2.2.2.2.2.1 2 1 (by decide) (by decide),
    h.2.2.2.2.2.2 127 125 (by decide) (by decide)⟩

/-- C5 is false as stated: `second_cc_value` is one `static` shared by all
four channels.  Channel 0 rising to 7-bit 70 sets the shared tracker to 10;
channel 1 then changing from 60 to 50 (never having been at or above 64)
emits the zero on its own second CC 19 and clears the tracker; when channel
0 afterwards drops from 70 to 50, no zero is emitted on its second CC 17 on
the transition tick. -/
theorem c5_second_cc_counterexample :
    (analogChannelStep DeviceMode.traktor 127 0 0 400 560 state0.note_state).1
      = [Event.cc 16 70, Event.cc 17 10] ∧
    (analogChannelStep DeviceMode.traktor 127 1
        (analogChannelStep DeviceMode.traktor 127 0 0 400 560
          state0.note_state).2.1
        480 400 state0.note_state).1
      = [Event.cc 18 49, Event.cc 19 0] ∧
    (analogChannelStep DeviceMode.traktor 127 0
        (analogChannelStep DeviceMode.traktor 127 1
          (analogChannelStep DeviceMode.traktor 127 0 0 400 560
            state0.note_state).2.1
          480 400 state0.note_state).2.1
        560 400 state0.note_state).1
      = [Event.cc 16 49] := by
  exact ⟨by decide, by decide, by decide⟩

/-- C5 (amended): for a changed value in `[3,124]` in Traktor mode: at or
above 64 the second CC `base_cc + 2·i + 1` is emitted with
`remap(value, 64, 124, 0, 105)` and the shared tracker takes that value;
below 64 a single zero is emitted on the second CC exactly when the shared
tracker is nonzero, and the tracker resets to 0, so the zero is not
repeated while the tracker stays 0 — but because the tracker is shared by
all four channels, the zero fires on whichever channel next drops, not
necessarily the one that had been above 64. -/
theorem c5_second_cc_amended (i scv v : Nat) (h3 : 3 ≤ v) (h124 : v ≤ 124) :
    (64 ≤ v →
       analogCCPart DeviceMode.traktor i scv v
         = ([Event.cc (16 + 2 * i) (remap v 3 124 0 127),
             Event.cc (16 + 2 * i + 1) (remap v 64 124 0 105)],
            remap v 64 124 0 105)) ∧
    (v < 64 → 0 < scv →
       analogCCPart DeviceMode.traktor i scv v
         = ([Event.cc (16 + 2 * i) (remap v 3 124 0 127),
             Event.cc (16 + 2 * i + 1) 0], 0)) ∧
    (v < 64 → scv = 0 →
       analogCCPart DeviceMode.traktor i scv v
         = ([Event.cc (16 + 2 * i) (remap v 3 124 0 127)], 0)) := by
  refine ⟨?_, ?_, ?_⟩
  · intro h64
    unfold analogCCPart
    rw [if_pos ⟨h3, h124⟩, if_pos rfl, if_pos h64]
    rfl
  · intro h64 hscv
    unfold analogCCPart
    rw [if_pos ⟨h3, h124⟩, if_pos rfl, if_neg (by omega), if_pos hscv]
    rfl
  · intro h64 hscv
    unfold analogCCPart
    rw [if_pos ⟨h3, h124⟩, if_pos rfl, if_neg (by omega), if_neg (by omega),
        hscv]

/-- Witness for `c5_second_cc_amended` on channel 0: value 70 emits the
second CC with remapped value 10; value 50 with tracker 10 emits the single
zero; value 50 with tracker 0 emits no second-CC event. -/
theorem c5_second_cc_amended_witness :
    analogCCPart DeviceMode.traktor 0 0 70
      = ([Event.cc 16 70, Event.cc 17 10], 10) ∧
    analogCCPart DeviceMode.traktor 0 10 50
      = ([Event.cc 16 49, Event.cc 17 0], 0) ∧
    analogCCPart DeviceMode.traktor 0 0 50
      = ([Event.cc 16 49], 0) := by
  have h70 := c5_second_cc_amended 0 0 70 (by decide) (by decide)
  have h50 := c5_second_cc_amended 0 10 50 (by decide) (by decide)
  have h50' := c5_second_cc_amended 0 0 50 (by decide) (by decide)
  refine ⟨?_, ?_, ?_⟩
  · rw [h70.1 (by decide)]
    decide
  · rw [h50.2.1 (by decide) (by decide)]
    decide
  · rw [h50'.2.2 (by decide) rfl]
    decide

-- C9: unconfigured-transport tick -------------------------------------------------

/-- C9: a tick executed while the USB transport is not configured sets the
liveness (watchdog) flag and returns immediately: it emits no MIDI events,
writes no LED state, and leaves the Note-State Ledger, the bank selection,
the analog previous values, the shared second-CC tracker and the GroundFx
counter exactly unchanged. -/
theorem c9_unconfigured_tick (cfg : Config) (inp : Inputs) (s : EngineState) :
    midifighterTask cfg false inp s = ({ s with watchdog := true }, [], none) ∧
    (midifighterTask cfg false inp s).2.1 = [] ∧
    (midifighterTask cfg false inp s).2.2 = none ∧
    (midifighterTask cfg false inp s).1.watchdog = true ∧
    (midifighterTask cfg false inp s).1.note_state = s.note_state ∧
    (midifighterTask cfg false inp s).1.bank_selected = s.bank_selected ∧
    (midifighterTask cfg false inp s).1.analog_prev = s.analog_prev ∧
    (midifighterTask cfg false inp s).1.second_cc = s.second_cc ∧
    (midifighterTask cfg false inp s).1.groundfx = s.groundfx :=
  ⟨rfl, rfl, rfl, rfl, rfl, rfl, rfl, rfl, rfl⟩

-- C10: slider inversion and the suppressed primary CC ------------------------------

/-- C10: with a slider-invert flag compiled in and rotate disabled, the
inversion computes `1024 - average` (not `1023 - average`), so a raw
average of 0 becomes 1024, whose 7-bit reduction (right-shift by 3) is 128,
above the 7-bit maximum 127; the channel's emission, fed that value, then
produces no CC event at all — in particular the primary CC is suppressed,
even though the control sits at an extreme position. -/
theorem c10_invert_overflow (mode : DeviceMode) (vel i : Nat)
    (ledger : Nat → Nat) :
    invertValue false true (analogAverage [0, 0, 0, 0]) = 1024 ∧
    invertValue false true 0 ≠ 1023 ∧
    (1024 : Nat) >>> 3 = 128 ∧
    127 < 128 ∧
    (∀ scv prev, ∀ e ∈ (analogChannelStep mode vel i scv prev 1024 ledger).1,
      isCCEvent e = false) := by
    refine ⟨by decide, by decide, by decide, by decide, ?_⟩
    intro scv prev e he
    unfold analogChannelStep at he
    rcases hysteresis_cases prev 1024 with hcase | hcase
    · rw [hcase, if_pos rfl] at he
      exact absurd he (List.not_mem_nil e)
    · rw [hcase] at he
      by_cases hvp : ((1024 : Nat) >>> 3) % 256 = (prev >>> 3) % 256
      · rw [if_pos hvp] at he
        exact absurd he (List.not_mem_nil e)
      · rw [if_neg hvp] at he
        have hcc : (analogCCPart mode i scv (((1024 : Nat) >>> 3) % 256)).1 = [] := by
          unfold analogCCPart
          rw [if_neg (by decide)]
        have he' : e ∈
            (analogCCPart mode i scv (((1024 : Nat) >>> 3) % 256)).1 ++
            (analogNotePart mode vel i (((1024 : Nat) >>> 3) % 256)
              ((prev >>> 3) % 256) ledger).1 := he
        rw [hcc, List.nil_append] at he'
        exact analogNotePart_no_cc mode vel i _ _ ledger e he'

/-- Witness for `c10_invert_overflow`: with previous 10-bit value 512, the
inverted extreme value 1024 makes channel 0 emit exactly the top-zone
Note-On(101) and nothing else — a note event, not a CC. -/
theorem c10_invert_overflow_witness :
    Event.noteOn 101
      ∈ (analogChannelStep DeviceMode.traktor 127 0 0 512 1024
          state0.note_state).1 ∧
    isCCEvent (Event.noteOn 101) = false := by
  have h := (c10_invert_overflow DeviceMode.traktor 127 0 state0.note_state).2.2.2.2
    0 512
  exact ⟨by decide, h (Event.noteOn 101) (by decide)⟩

end Midifighter
